import Mathlib

/-
Verification of the provider-model layer of the go-cloud wire tool.

The development shallowly embeds the code of
`src/wire/internal/wire/parse.go` (provider classification, duplicate-input
detection, struct providers, wire.Bind, wire.Value, wire.NewSet assembly,
and the ProvidedType accessors) and the three generated injector functions
of `src/samples/guestbook/wire_gen.go` (setupAWS, setupGCP, setupLocal).

Go `types.Type` values are modelled by the inductive `Ty`; `types.Identical`
becomes decidable equality on `Ty`.  Error values carry a source position
and a structured message (`ErrMsg`), whose `render` function produces the
exact strings the Go code formats.  Fallible functions return `Except` or,
where the Go function returns a `(pointer, error-list)` pair, an
`Option _ × List _` pair.
-/

set_option autoImplicit false

namespace Wire

/-- Model of Go `types.Type` as used by parse.go.  `error` models the
predeclared `error` interface (whose underlying type is an interface with
the single method `Error`), `cleanupFunc` models the type `func()`,
`named` a named non-interface type together with its method set,
`iface` a (named or anonymous) interface type with its method set, and
`ptr` a pointer type.  `types.Identical` is modelled by equality. -/
inductive Ty where
  | error
  | cleanupFunc
  | named (name : String) (methods : List String)
  | iface (name : String) (methods : List String)
  | ptr (elem : Ty)
deriving DecidableEq, Repr

/-- Rendering of a type for error messages, modelling `types.TypeString`. -/
def tyString : Ty → String
  | Ty.error => "error"
  | Ty.cleanupFunc => "func()"
  | Ty.named n _ => n
  | Ty.iface n _ => n
  | Ty.ptr t => "*" ++ tyString t

/-- The errors produced by `funcOutput` in parse.go. -/
inductive SigErr where
  | noReturnValues
  | secondNotErrorOrCleanup (t : Ty)
  | secondNotCleanup (t : Ty)
  | thirdNotError (t : Ty)
  | tooManyReturnValues
deriving DecidableEq, Repr

/-- The exact message strings `funcOutput` formats. -/
def SigErr.render : SigErr → String
  | .noReturnValues => "no return values"
  | .secondNotErrorOrCleanup t =>
      "second return type is " ++ tyString t ++ "; must be error or func()"
  | .secondNotCleanup t => "second return type is " ++ tyString t ++ "; must be func()"
  | .thirdNotError t => "third return type is " ++ tyString t ++ "; must be error"
  | .tooManyReturnValues => "too many return values"

/-- Structured messages of the errors parse.go produces in the functions
embedded here. -/
inductive ErrMsg where
  | wrongSignature (providerName : String) (e : SigErr)
  | multipleParamsOfType (t : Ty)
  | multipleFieldsOfType (t : Ty)
  | doesNotNameStruct (name : String)
  | bindTakesTwoArgs
  | bindFirstArgNotIfacePtr (t : Ty)
  | cannotBindToItself
  | doesNotImplement (provided iface : Ty)
  | valueTakesOneArg
  | tooComplex
  | valueIsInterface (t : Ty)
deriving DecidableEq, Repr

/-- The exact message strings the Go code formats for each `ErrMsg`. -/
def ErrMsg.render : ErrMsg → String
  | .wrongSignature n e => "wrong signature for provider " ++ n ++ ": " ++ e.render
  | .multipleParamsOfType t => "provider has multiple parameters of type " ++ tyString t
  | .multipleFieldsOfType t => "provider struct has multiple fields of type " ++ tyString t
  | .doesNotNameStruct n => n ++ " does not name a struct"
  | .bindTakesTwoArgs => "call to Bind takes exactly two arguments"
  | .bindFirstArgNotIfacePtr t =>
      "first argument to Bind must be a pointer to an interface type; found " ++ tyString t
  | .cannotBindToItself => "cannot bind interface to itself"
  | .doesNotImplement p i => tyString p ++ " does not implement " ++ tyString i
  | .valueTakesOneArg => "call to Value takes exactly one argument"
  | .tooComplex => "argument to Value is too complex"
  | .valueIsInterface t =>
      "argument to Value may not be an interface value (found " ++ tyString t
        ++ "); use InterfaceValue instead"

/-- A position-annotated error, modelling `notePosition(fset.Position(p), err)`.
Positions are abstract `Nat` tokens. -/
structure WireError where
  pos : Nat
  msg : ErrMsg
deriving DecidableEq, Repr

/-- The result of `funcOutput`: output type plus the two effect flags. -/
structure OutputSignature where
  out : Ty
  cleanup : Bool
  err : Bool
deriving DecidableEq, Repr

/-- Embedding of `funcOutput` (parse.go, lines 674 to 706).  The Go function
switches on `sig.Results().Len()`; the result tuple is modelled as a
`List Ty`, and `types.Identical(t, errorType)` / `types.Identical(t,
cleanupType)` as equality with `Ty.error` / `Ty.cleanupFunc`. -/
def funcOutput (results : List Ty) : Except SigErr OutputSignature :=
  match results with
  | [] => .error .noReturnValues
  | [t] => .ok { out := t, cleanup := false, err := false }
  | [out, second] =>
    if second = Ty.error then .ok { out := out, cleanup := false, err := true }
    else if second = Ty.cleanupFunc then .ok { out := out, cleanup := true, err := false }
    else .error (.secondNotErrorOrCleanup second)
  | [out, second, third] =>
    if second ≠ Ty.cleanupFunc then .error (.secondNotCleanup second)
    else if third ≠ Ty.error then .error (.thirdNotError third)
    else .ok { out := out, cleanup := true, err := true }
  | _ => .error .tooManyReturnValues

/-- The shapes the claim says `funcOutput` must reject, written from the
claim text: zero results, more than three results, a second result (of two)
that is neither error nor func(), or three results whose second is not
func() or whose third is not error. -/
def resultShapeRejected : List Ty → Bool
  | [] => true
  | [_] => false
  | [_, second] => !(second = Ty.error || second = Ty.cleanupFunc)
  | [_, second, third] => !(second = Ty.cleanupFunc) || !(third = Ty.error)
  | _ => true

/-- Claim C2: `funcOutput` returns an error if and only if the result shape
is one of the rejected shapes (zero results, more than three, a bad second
result of two, or a three-result shape that is not (value, func(), error));
in every accepted case the output is the first result type, the err flag is
set exactly when an error result is present among the results after the
output, and the cleanup flag exactly when a func() result is present among
the results after the output. -/
theorem funcOutput_shape_contract : ∀ results : List Ty,
    match funcOutput results with
    | .error _ => resultShapeRejected results = true
    | .ok osig =>
        resultShapeRejected results = false
        ∧ (∃ t ts, results = t :: ts ∧ osig.out = t)
        ∧ osig.err = decide (Ty.error ∈ results.drop 1)
        ∧ osig.cleanup = decide (Ty.cleanupFunc ∈ results.drop 1) := by
  intro results
  rcases results with _ | ⟨a, _ | ⟨b, _ | ⟨c, _ | ⟨d, tl⟩⟩⟩⟩
  · simp [funcOutput, resultShapeRejected]
  · simp [funcOutput, resultShapeRejected]
  · by_cases hb : b = Ty.error
    · subst hb; simp [funcOutput, resultShapeRejected]
    · by_cases hb2 : b = Ty.cleanupFunc
      · subst hb2; simp [funcOutput, resultShapeRejected]
      · simp [funcOutput, resultShapeRejected, hb, hb2]
  · by_cases hb : b = Ty.cleanupFunc
    · subst hb
      by_cases hc : c = Ty.error
      · subst hc; simp [funcOutput, resultShapeRejected]
      · simp [funcOutput, resultShapeRejected, hc]
    · simp [funcOutput, resultShapeRejected, hb]
  · simp [funcOutput, resultShapeRejected]

/-- Which fallible external calls of `setupAWS` (wire_gen.go, lines 37 to 95)
fail.  Each field corresponds, in source order, to one call in the function
body that can return a non-nil error: `rdsmysql.Open`,
`session.NewSessionWithOptions`, `xrayserver.NewExporter`, `awsBucket`,
`awsMOTDVar`. -/
structure AWSOracle where
  openFails : Bool
  sessionFails : Bool
  exporterFails : Bool
  bucketFails : Bool
  motdFails : Bool

/-- Which fallible external calls of `setupGCP` (wire_gen.go, lines 106 to
168) fail, in source order: `gcp.DefaultCredentials`, `gcp.NewHTTPClient`,
`gcp.DefaultProjectID`, `cloudmysql.Open`, `sdserver.NewExporter`,
`gcpBucket`, `runtimeconfigurator.Dial`, `gcpMOTDVar`. -/
structure GCPOracle where
  credentialsFails : Bool
  httpClientFails : Bool
  projectIDFails : Bool
  openFails : Bool
  exporterFails : Bool
  bucketFails : Bool
  dialFails : Bool
  motdFails : Bool

/-- Which fallible external calls of `setupLocal` (wire_gen.go, lines 172 to
205) fail, in source order: `dialLocalSQL`, `localBucket`,
`localRuntimeVar`. -/
structure LocalOracle where
  dialFails : Bool
  bucketFails : Bool
  motdFails : Bool

/-- Embedding of `setupAWS` (wire_gen.go, lines 37 to 95).  The oracle says
which fallible call fails first; pure steps are irrelevant to the teardown
discipline and elided.  On an error path the result is `.error calls` where
`calls` lists, in call order, exactly the cleanup invocations the code
performs before `return nil, nil, err`; on success it is `.ok calls` where
`calls` lists the invocations performed by the returned aggregate cleanup
function.  Teardown names are the variable names of the Go code:
`cleanup` from `rdsmysql.Open`, `cleanup2` from `appHealthChecks`,
`cleanup3` from `xrayserver.NewExporter`. -/
def setupAWS (o : AWSOracle) : Except (List String) (List String) :=
  if o.openFails then .error []
  else if o.sessionFails then .error ["cleanup2", "cleanup"]
  else if o.exporterFails then .error ["cleanup2", "cleanup"]
  else if o.bucketFails then .error ["cleanup3", "cleanup2", "cleanup"]
  else if o.motdFails then .error ["cleanup3", "cleanup2", "cleanup"]
  else .ok ["cleanup3", "cleanup2", "cleanup"]

/-- Embedding of `setupGCP` (wire_gen.go, lines 106 to 168), in the same
style as `setupAWS`.  Teardowns: `cleanup` from `appHealthChecks`,
`cleanup2` from `runtimeconfigurator.Dial`, `cleanup3` from `gcpMOTDVar`. -/
def setupGCP (o : GCPOracle) : Except (List String) (List String) :=
  if o.credentialsFails then .error []
  else if o.httpClientFails then .error []
  else if o.projectIDFails then .error []
  else if o.openFails then .error []
  else if o.exporterFails then .error ["cleanup"]
  else if o.bucketFails then .error ["cleanup"]
  else if o.dialFails then .error ["cleanup"]
  else if o.motdFails then .error ["cleanup2", "cleanup"]
  else .ok ["cleanup3", "cleanup2", "cleanup"]

/-- Embedding of `setupLocal` (wire_gen.go, lines 172 to 205).  Teardowns:
`cleanup` from `appHealthChecks`, `cleanup2` from `localRuntimeVar`. -/
def setupLocal (o : LocalOracle) : Except (List String) (List String) :=
  if o.dialFails then .error []
  else if o.bucketFails then .error ["cleanup"]
  else if o.motdFails then .error ["cleanup"]
  else .ok ["cleanup2", "cleanup"]

/-- Specification side of claim C1: the teardowns registered by the steps of
`setupAWS` that complete before the first failing call (all steps when no
call fails), in order of acquisition.  `cleanup` is acquired when
`rdsmysql.Open` succeeds, then `cleanup2` by `appHealthChecks` (which cannot
fail), and `cleanup3` when `xrayserver.NewExporter` succeeds. -/
def awsRegistered (o : AWSOracle) : List String :=
  if o.openFails then []
  else if o.sessionFails then ["cleanup", "cleanup2"]
  else if o.exporterFails then ["cleanup", "cleanup2"]
  else ["cleanup", "cleanup2", "cleanup3"]

/-- Teardowns registered by the completed steps of `setupGCP`, in order of
acquisition. -/
def gcpRegistered (o : GCPOracle) : List String :=
  if o.credentialsFails || o.httpClientFails || o.projectIDFails || o.openFails then []
  else if o.exporterFails || o.bucketFails || o.dialFails then ["cleanup"]
  else if o.motdFails then ["cleanup", "cleanup2"]
  else ["cleanup", "cleanup2", "cleanup3"]

/-- Teardowns registered by the completed steps of `setupLocal`, in order of
acquisition. -/
def localRegistered (o : LocalOracle) : List String :=
  if o.dialFails then []
  else if o.bucketFails then ["cleanup"]
  else if o.motdFails then ["cleanup"]
  else ["cleanup", "cleanup2"]

/-- The cleanup invocations an injector run performs: on an error path the
calls made before the error is returned, on success the calls made by the
returned aggregate cleanup function. -/
def invokedTeardowns (r : Except (List String) (List String)) : List String :=
  match r with
  | .error calls => calls
  | .ok calls => calls

/-- Claim C1: in each generated injector, when a construction step fails the
teardown callbacks invoked before the error is returned are exactly those
registered by previously completed steps, in strict reverse order of
acquisition and each exactly once (a step with no teardowns registered yet
returns with no calls, since the registered list is empty); and on success
the returned aggregate cleanup function invokes all registered teardowns in
reverse construction order. -/
theorem injector_teardown_discipline :
    (∀ o : AWSOracle, invokedTeardowns (setupAWS o) = (awsRegistered o).reverse
      ∧ (invokedTeardowns (setupAWS o)).Nodup)
    ∧ (∀ o : GCPOracle, invokedTeardowns (setupGCP o) = (gcpRegistered o).reverse
      ∧ (invokedTeardowns (setupGCP o)).Nodup)
    ∧ (∀ o : LocalOracle, invokedTeardowns (setupLocal o) = (localRegistered o).reverse
      ∧ (invokedTeardowns (setupLocal o)).Nodup) := by
  refine ⟨?_, ?_, ?_⟩
  · intro o
    obtain ⟨a, b, c, d, e⟩ := o
    revert a b c d e
    decide
  · intro o
    obtain ⟨a, b, c, d, e, f, g, h⟩ := o
    revert a b c d e f g h
    decide
  · intro o
    obtain ⟨a, b, c⟩ := o
    revert a b c
    decide

/-- Embedding of `ProviderInput` (parse.go, lines 177 to 182). -/
structure ProviderInput where
  type : Ty
deriving DecidableEq, Repr

/-- Embedding of `Provider` (parse.go, lines 140 to 175).  `pkg` is the
package path, `pos` the declaring position. -/
structure Provider where
  pkg : String
  name : String
  pos : Nat
  args : List ProviderInput
  isStruct : Bool
  fields : List String
  out : List Ty
  hasCleanup : Bool
  hasErr : Bool
deriving DecidableEq, Repr

/-- The duplicate-input scan of `processFuncProvider` and
`processStructProvider`: Go iterates `i` over the inputs and compares
`Args[i].Type` with every `Args[j].Type` for `j < i`, reporting the first
identical pair.  `seen` holds the inputs already scanned, in order. -/
def firstDupAux (seen : List Ty) : List Ty → Option Ty
  | [] => none
  | t :: rest => if t ∈ seen then some t else firstDupAux (seen ++ [t]) rest

/-- The type reported by the duplicate-input scan, if any. -/
def firstDup (l : List Ty) : Option Ty :=
  firstDupAux [] l

theorem firstDupAux_eq_none_iff : ∀ (rest seen : List Ty),
    firstDupAux seen rest = none ↔ (rest.Nodup ∧ ∀ x ∈ rest, x ∉ seen) := by
  intro rest
  induction rest with
  | nil => intro seen; simp [firstDupAux]
  | cons t ts ih =>
    intro seen
    by_cases ht : t ∈ seen
    · simp [firstDupAux, ht]
    · rw [firstDupAux, if_neg ht, ih, List.nodup_cons]
      constructor
      · rintro ⟨hnd, hall⟩
        have htts : t ∉ ts := fun hmem =>
          hall t hmem (List.mem_append_right seen (by simp))
        refine ⟨⟨htts, hnd⟩, ?_⟩
        intro x hx
        rw [List.mem_cons] at hx
        rcases hx with rfl | hx
        · exact ht
        · intro hxs
          exact hall x hx (List.mem_append_left [t] hxs)
      · rintro ⟨⟨htts, hnd⟩, hall⟩
        refine ⟨hnd, ?_⟩
        intro x hx hmem
        rcases List.mem_append.mp hmem with hxs | hxt
        · exact hall x (List.mem_cons_of_mem t hx) hxs
        · have hx2 : x = t := by simpa using hxt
          subst hx2
          exact htts hx

theorem firstDupAux_some_count : ∀ (rest seen : List Ty) (t : Ty),
    firstDupAux seen rest = some t → 2 ≤ seen.count t + rest.count t := by
  intro rest
  induction rest with
  | nil => intro seen t h; simp [firstDupAux] at h
  | cons x xs ih =>
    intro seen t h
    by_cases hx : x ∈ seen
    · rw [firstDupAux, if_pos hx] at h
      have hxt : x = t := by simpa using h
      subst hxt
      have h1 : 0 < seen.count x := List.count_pos_iff.mpr hx
      have h2 : (x :: xs).count x = xs.count x + 1 := by
        simp [List.count_cons]
      omega
    · rw [firstDupAux, if_neg hx] at h
      have hrec := ih (seen ++ [x]) t h
      rw [List.count_append] at hrec
      simp only [List.count_cons, List.count_nil] at hrec ⊢
      omega

/-- The scan finds no duplicate exactly when the inputs are pairwise
distinct. -/
theorem firstDup_eq_none_iff (l : List Ty) : firstDup l = none ↔ l.Nodup := by
  rw [firstDup, firstDupAux_eq_none_iff]
  simp

/-- The type the scan reports occurs at least twice among the inputs. -/
theorem firstDup_some_count {l : List Ty} {t : Ty} (h : firstDup l = some t) :
    2 ≤ l.count t := by
  have := firstDupAux_some_count l [] t h
  simpa using this

/-- Embedding of `processFuncProvider` (parse.go, lines 629 to 657).  The
function is given by the front end as its position, package, name, parameter
types and result types.  Go fills `Args` and checks each new entry against
the earlier ones inside one loop, returning at the first duplicate; the
observable result (first error, or the completed `Provider`) is the same as
checking for the first duplicate and then building the provider. -/
def processFuncProvider (fpos : Nat) (pkg name : String)
    (params results : List Ty) : Except (List WireError) Provider :=
  match funcOutput results with
  | .error e => .error [⟨fpos, .wrongSignature name e⟩]
  | .ok psig =>
    match firstDup params with
    | some t => .error [⟨fpos, .multipleParamsOfType t⟩]
    | none =>
      .ok { pkg := pkg, name := name, pos := fpos,
            args := params.map (fun t => ⟨t⟩),
            isStruct := false, fields := [], out := [psig.out],
            hasCleanup := psig.cleanup, hasErr := psig.err }

/-- The front-end view of a `types.TypeName`: its name, package, position,
the named type itself, and, when its underlying type is a struct, the
ordered field list (name and type of each field). -/
structure TypeNameM where
  name : String
  pkg : String
  pos : Nat
  ty : Ty
  structFields : Option (List (String × Ty))
deriving DecidableEq, Repr

/-- Embedding of `processStructProvider` (parse.go, lines 710 to 740).
Like the Go code it checks that the underlying type is a struct, then fills
`Args` and `Fields` from the fields in order with the same duplicate scan as
function providers, and produces `Out = [T, *T]`. -/
def processStructProvider (tn : TypeNameM) : Except (List WireError) Provider :=
  match tn.structFields with
  | none => .error [⟨tn.pos, .doesNotNameStruct tn.name⟩]
  | some fields =>
    match firstDup (fields.map Prod.snd) with
    | some t => .error [⟨tn.pos, .multipleFieldsOfType t⟩]
    | none =>
      .ok { pkg := tn.pkg, name := tn.name, pos := tn.pos,
            args := (fields.map Prod.snd).map (fun t => ⟨t⟩),
            isStruct := true, fields := fields.map Prod.fst,
            out := [tn.ty, Ty.ptr tn.ty],
            hasCleanup := false, hasErr := false }

/-- Whether a provider-construction result is a duplicate-parameter
rejection. -/
def isDupParamError (r : Except (List WireError) Provider) : Bool :=
  match r with
  | .error es => es.any (fun e => match e.msg with
      | .multipleParamsOfType _ => true
      | _ => false)
  | .ok _ => false

/-- Whether a provider-construction result is a duplicate-field
rejection. -/
def isDupFieldError (r : Except (List WireError) Provider) : Bool :=
  match r with
  | .error es => es.any (fun e => match e.msg with
      | .multipleFieldsOfType _ => true
      | _ => false)
  | .ok _ => false

/-- Claim C3 counterexample: a function provider with two parameters of the
identical type whose result shape is also invalid (here: no results) fails
with the wrong-signature error, not with the duplicate-parameter message the
claim asserts, so the claim as stated is false. -/
theorem dup_input_counterexample :
    ¬ ([Ty.named "T" [], Ty.named "T" []] : List Ty).Nodup
    ∧ processFuncProvider 5 "pkg" "f" [Ty.named "T" [], Ty.named "T" []] []
        = .error [⟨5, .wrongSignature "f" .noReturnValues⟩]
    ∧ isDupParamError
        (processFuncProvider 5 "pkg" "f" [Ty.named "T" [], Ty.named "T" []] [])
      = false := by
  exact ⟨by decide, rfl, rfl⟩

/-- Claim C3 (amended): for a candidate provider whose result shape is
accepted, if two of its input types are identical then construction fails
with a single fatal error at the provider position, with message
"provider has multiple parameters of type T" for a function provider and
"provider struct has multiple fields of type T" for a struct provider,
where T is a type occurring at least twice among the inputs, and no
Provider is returned; a provider whose inputs are pairwise distinct is
never rejected with a duplicate-input error.  (When the result shape is
also invalid, the function provider instead fails with the
wrong-signature error, see the counterexample.) -/
theorem dup_input_rejection : ∀ (fpos : Nat) (pkg name : String)
    (params results : List Ty) (tn : TypeNameM) (fields : List (String × Ty)),
    ((funcOutput results).isOk = true → ¬ params.Nodup →
      ∃ t, 2 ≤ params.count t
        ∧ processFuncProvider fpos pkg name params results
            = .error [⟨fpos, .multipleParamsOfType t⟩]
        ∧ (ErrMsg.multipleParamsOfType t).render
            = "provider has multiple parameters of type " ++ tyString t)
    ∧ (params.Nodup →
        isDupParamError (processFuncProvider fpos pkg name params results) = false)
    ∧ (tn.structFields = some fields → ¬ (fields.map Prod.snd).Nodup →
      ∃ t, 2 ≤ (fields.map Prod.snd).count t
        ∧ processStructProvider tn = .error [⟨tn.pos, .multipleFieldsOfType t⟩]
        ∧ (ErrMsg.multipleFieldsOfType t).render
            = "provider struct has multiple fields of type " ++ tyString t)
    ∧ (tn.structFields = some fields → (fields.map Prod.snd).Nodup →
        isDupFieldError (processStructProvider tn) = false) := by
  intro fpos pkg name params results tn fields
  refine ⟨?_, ?_, ?_, ?_⟩
  · intro hok hnd
    cases hfo : funcOutput results with
    | error e => rw [hfo] at hok; simp [Except.isOk, Except.toBool] at hok
    | ok osig =>
      cases hdup : firstDup params with
      | none => exact absurd ((firstDup_eq_none_iff params).mp hdup) hnd
      | some t =>
        exact ⟨t, firstDup_some_count hdup,
          by simp [processFuncProvider, hfo, hdup], rfl⟩
  · intro hnd
    have hdup : firstDup params = none := (firstDup_eq_none_iff params).mpr hnd
    cases hfo : funcOutput results with
    | error e => simp [processFuncProvider, hfo, isDupParamError]
    | ok osig => simp [processFuncProvider, hfo, hdup, isDupParamError]
  · intro hsf hnd
    cases hdup : firstDup (fields.map Prod.snd) with
    | none => exact absurd ((firstDup_eq_none_iff _).mp hdup) hnd
    | some t =>
      exact ⟨t, firstDup_some_count hdup,
        by simp [processStructProvider, hsf, hdup], rfl⟩
  · intro hsf hnd
    have hdup : firstDup (fields.map Prod.snd) = none :=
      (firstDup_eq_none_iff _).mpr hnd
    simp [processStructProvider, hsf, hdup, isDupFieldError]

/-- Witness for the amended claim C3 at a concrete provider: duplicating the
parameter type A with a legal result shape produces exactly the
duplicate-parameter error. -/
theorem dup_input_rejection_witness :
    ∃ t, 2 ≤ ([Ty.named "A" [], Ty.named "A" []] : List Ty).count t
      ∧ processFuncProvider 0 "p" "f" [Ty.named "A" [], Ty.named "A" []]
          [Ty.named "R" []]
          = .error [⟨0, .multipleParamsOfType t⟩]
      ∧ (ErrMsg.multipleParamsOfType t).render
          = "provider has multiple parameters of type " ++ tyString t :=
  (dup_input_rejection 0 "p" "f" [Ty.named "A" [], Ty.named "A" []]
      [Ty.named "R" []] ⟨"S", "p", 3, Ty.named "S" [], some []⟩ []).1
    (by decide) (by decide)

/-- Claim C4: every named struct type accepted as a struct provider yields a
single Provider whose Out is exactly the struct type and the pointer to it,
with one input and one field name per struct field in order, and with both
effect flags false. -/
theorem structProvider_out_contract : ∀ (tn : TypeNameM)
    (fields : List (String × Ty)) (p : Provider),
    tn.structFields = some fields →
    processStructProvider tn = .ok p →
    p.out = [tn.ty, Ty.ptr tn.ty]
    ∧ p.args = (fields.map Prod.snd).map (fun t => ⟨t⟩)
    ∧ p.fields = fields.map Prod.fst
    ∧ p.args.length = fields.length
    ∧ p.fields.length = fields.length
    ∧ p.isStruct = true
    ∧ p.hasCleanup = false ∧ p.hasErr = false := by
  intro tn fields p hsf hok
  cases hdup : firstDup (fields.map Prod.snd) with
  | some t => simp [processStructProvider, hsf, hdup] at hok
  | none =>
    simp only [processStructProvider, hsf, hdup] at hok
    injection hok with h
    subst h
    refine ⟨rfl, rfl, rfl, by simp, by simp, rfl, rfl, rfl⟩

/-- Witness for claim C4 at a concrete one-field struct, with the provider
record written as ⟨pkg, name, pos, args, isStruct, fields, out, hasCleanup,
hasErr⟩. -/
theorem structProvider_out_contract_witness :
    Provider.out ⟨"p", "S", 3, [⟨Ty.named "A" []⟩], true, ["x"],
        [Ty.named "S" [], Ty.ptr (Ty.named "S" [])], false, false⟩
      = [Ty.named "S" [], Ty.ptr (Ty.named "S" [])]
    ∧ Provider.args ⟨"p", "S", 3, [⟨Ty.named "A" []⟩], true, ["x"],
        [Ty.named "S" [], Ty.ptr (Ty.named "S" [])], false, false⟩
      = (([("x", Ty.named "A" [])].map Prod.snd).map (fun t => ⟨t⟩))
    ∧ Provider.fields ⟨"p", "S", 3, [⟨Ty.named "A" []⟩], true, ["x"],
        [Ty.named "S" [], Ty.ptr (Ty.named "S" [])], false, false⟩
      = [("x", Ty.named "A" [])].map Prod.fst
    ∧ (Provider.args ⟨"p", "S", 3, [⟨Ty.named "A" []⟩], true, ["x"],
        [Ty.named "S" [], Ty.ptr (Ty.named "S" [])], false, false⟩).length
      = [("x", Ty.named "A" [])].length
    ∧ (Provider.fields ⟨"p", "S", 3, [⟨Ty.named "A" []⟩], true, ["x"],
        [Ty.named "S" [], Ty.ptr (Ty.named "S" [])], false, false⟩).length
      = [("x", Ty.named "A" [])].length
    ∧ Provider.isStruct ⟨"p", "S", 3, [⟨Ty.named "A" []⟩], true, ["x"],
        [Ty.named "S" [], Ty.ptr (Ty.named "S" [])], false, false⟩ = true
    ∧ Provider.hasCleanup ⟨"p", "S", 3, [⟨Ty.named "A" []⟩], true, ["x"],
        [Ty.named "S" [], Ty.ptr (Ty.named "S" [])], false, false⟩ = false
    ∧ Provider.hasErr ⟨"p", "S", 3, [⟨Ty.named "A" []⟩], true, ["x"],
        [Ty.named "S" [], Ty.ptr (Ty.named "S" [])], false, false⟩ = false :=
  structProvider_out_contract
    ⟨"S", "p", 3, Ty.named "S" [], some [("x", Ty.named "A" [])]⟩
    [("x", Ty.named "A" [])]
    ⟨"p", "S", 3, [⟨Ty.named "A" []⟩], true, ["x"],
      [Ty.named "S" [], Ty.ptr (Ty.named "S" [])], false, false⟩
    rfl rfl

/-- Embedding of `IfaceBinding` (parse.go, lines 127 to 138). -/
structure IfaceBinding where
  iface : Ty
  provided : Ty
  pos : Nat
deriving DecidableEq, Repr

/-- The underlying interface of a type, when its underlying type is an
interface, as its method set.  Models `t.Underlying().(*types.Interface)`:
a declared interface type carries its own methods, and the predeclared
`error` type has underlying interface with the single method `Error`. -/
def underlyingInterface : Ty → Option (List String)
  | Ty.iface _ methods => some methods
  | Ty.error => some ["Error"]
  | _ => none

/-- The method set of a type, used to decide `types.Implements`. -/
def methodsOf : Ty → List String
  | Ty.named _ methods => methods
  | Ty.iface _ methods => methods
  | Ty.error => ["Error"]
  | Ty.cleanupFunc => []
  | Ty.ptr t => methodsOf t

/-- Models `types.Implements(t, methodSet)`: every method of the interface
is in the method set of `t`. -/
def implementsIface (t : Ty) (ifaceMethods : List String) : Bool :=
  ifaceMethods.all (fun m => (methodsOf t).contains m)

/-- Embedding of `processBind` (parse.go, lines 743 to 772).  The call is
given by its position and the types of its arguments as the type checker
reports them (`info.TypeOf`).  The checks are performed in source order:
argument count, first argument a pointer to an interface type, self
binding, implements. -/
def processBind (cpos : Nat) (argTypes : List Ty) : Except WireError IfaceBinding :=
  match argTypes with
  | [first, second] =>
    match first with
    | Ty.ptr ifaceT =>
      match underlyingInterface ifaceT with
      | none => .error ⟨cpos, .bindFirstArgNotIfacePtr first⟩
      | some methodSet =>
        if ifaceT = second then .error ⟨cpos, .cannotBindToItself⟩
        else if !(implementsIface second methodSet) then
          .error ⟨cpos, .doesNotImplement second ifaceT⟩
        else .ok ⟨ifaceT, second, cpos⟩
    | _ => .error ⟨cpos, .bindFirstArgNotIfacePtr first⟩
  | _ => .error ⟨cpos, .bindTakesTwoArgs⟩

/-- A type whose underlying type is an interface implements that
interface. -/
theorem self_implements {i : Ty} {ms : List String}
    (h : underlyingInterface i = some ms) : implementsIface i ms = true := by
  cases i <;> simp [underlyingInterface] at h <;> subst h <;>
    simp [implementsIface, methodsOf, List.all_eq_true]

/-- Claim C5: for a `wire.Bind` call with two arguments whose first is a
pointer to an interface type, processing fails with the implements error
when the second argument does not implement the method set, fails with the
self-binding error when the second argument is identical to the interface
type, and otherwise succeeds with an `IfaceBinding` whose Provided type
implements its Iface type. -/
theorem processBind_contract : ∀ (cpos : Nat) (i second : Ty) (ms : List String),
    underlyingInterface i = some ms →
    ((implementsIface second ms = false →
        processBind cpos [Ty.ptr i, second]
          = .error ⟨cpos, .doesNotImplement second i⟩)
    ∧ (second = i →
        processBind cpos [Ty.ptr i, second] = .error ⟨cpos, .cannotBindToItself⟩)
    ∧ (second ≠ i → implementsIface second ms = true →
        processBind cpos [Ty.ptr i, second] = .ok ⟨i, second, cpos⟩
        ∧ implementsIface second ms = true)) := by
  intro cpos i second ms hu
  refine ⟨?_, ?_, ?_⟩
  · intro himp
    have hne : i ≠ second := by
      intro he
      rw [he] at hu
      have : implementsIface second ms = true := self_implements hu
      rw [himp] at this
      cases this
    simp [processBind, hu, hne, himp]
  · intro he
    subst he
    simp [processBind, hu]
  · intro hne himp
    have hne2 : i ≠ second := fun he => hne he.symm
    refine ⟨by simp [processBind, hu, hne2, himp], himp⟩

/-- Witness for claim C5: binding interface I with method M to a concrete
type T with method M succeeds; binding it to itself or to a methodless type
fails as stated. -/
theorem processBind_contract_witness :
    (implementsIface (Ty.named "T" []) ["M"] = false →
        processBind 2 [Ty.ptr (Ty.iface "I" ["M"]), Ty.named "T" []]
          = .error ⟨2, .doesNotImplement (Ty.named "T" []) (Ty.iface "I" ["M"])⟩)
    ∧ (Ty.named "T" [] = Ty.iface "I" ["M"] →
        processBind 2 [Ty.ptr (Ty.iface "I" ["M"]), Ty.named "T" []]
          = .error ⟨2, .cannotBindToItself⟩)
    ∧ (Ty.named "T" [] ≠ Ty.iface "I" ["M"] →
        implementsIface (Ty.named "T" []) ["M"] = true →
        processBind 2 [Ty.ptr (Ty.iface "I" ["M"]), Ty.named "T" []]
          = .ok ⟨Ty.iface "I" ["M"], Ty.named "T" [], 2⟩
        ∧ implementsIface (Ty.named "T" []) ["M"] = true) :=
  processBind_contract 2 (Ty.iface "I" ["M"]) (Ty.named "T" []) ["M"] (by decide)

/-- Model of the Go AST expressions `processValue` inspects.  One
constructor per node kind the inspection distinguishes: the allowed kinds of
the list in parse.go lines 782 to 800, `unary` with a flag saying whether
its operator is the channel-receive arrow, `call` with a flag saying whether
the type of its function operand is a `*types.Signature` (a real call
rather than a type conversion), `typeNode` standing for the allowed type
expression kinds (ArrayType, ChanType, FuncType, InterfaceType, MapType,
StructType), and `funcLit` standing for a node kind outside the listed
ones (a function literal), which falls to the default branch.  Children
are carried as the lists `ast.Inspect` walks. -/
inductive Expr where
  | basicLit (lit : String)
  | ident (name : String)
  | binary (lhs rhs : Expr)
  | unary (isArrow : Bool) (operand : Expr)
  | call (funIsSignature : Bool) (children : List Expr)
  | composite (children : List Expr)
  | keyValue (key val : Expr)
  | paren (inner : Expr)
  | selector (receiver : Expr) (field : String)
  | star (inner : Expr)
  | index (coll pos : Expr)
  | slice (children : List Expr)
  | typeAssert (inner : Expr)
  | typeNode (kindName : String)
  | funcLit
deriving Repr

mutual

/-- All nodes of an expression in the order `ast.Inspect` visits them. -/
def preorder : Expr → List Expr
  | .basicLit s => [Expr.basicLit s]
  | .ident n => [Expr.ident n]
  | .binary a b => Expr.binary a b :: (preorder a ++ preorder b)
  | .unary ar e => Expr.unary ar e :: preorder e
  | .call sig cs => Expr.call sig cs :: preorderList cs
  | .composite cs => Expr.composite cs :: preorderList cs
  | .keyValue k v => Expr.keyValue k v :: (preorder k ++ preorder v)
  | .paren e => Expr.paren e :: preorder e
  | .selector e f => Expr.selector e f :: preorder e
  | .star e => Expr.star e :: preorder e
  | .index a b => Expr.index a b :: (preorder a ++ preorder b)
  | .slice cs => Expr.slice cs :: preorderList cs
  | .typeAssert e => Expr.typeAssert e :: preorder e
  | .typeNode k => [Expr.typeNode k]
  | .funcLit => [Expr.funcLit]

/-- Preorder traversal of a list of sibling nodes. -/
def preorderList : List Expr → List Expr
  | [] => []
  | e :: es => preorder e ++ preorderList es

end

/-- The per-node test of the `ast.Inspect` callback in `processValue`:
a node is acceptable unless it is a channel receive, a call whose function
operand has a signature type, or a node kind outside the allowed list. -/
def nodeOK : Expr → Bool
  | .unary isArrow _ => !isArrow
  | .call funIsSignature _ => !funIsSignature
  | .funcLit => false
  | _ => true

/-- The whole-expression test of `processValue` (parse.go, lines 781 to
802): `ok` stays true iff every visited node passes `nodeOK`.  (`Inspect`
stops descending once `ok` is false, but the conjunction over all nodes is
the same.) -/
def exprOK (e : Expr) : Bool :=
  (preorder e).all nodeOK

/-- A node is a channel-receive operation. -/
def isChanRecv : Expr → Bool
  | .unary true _ => true
  | _ => false

/-- A node is a call whose operand is a function (a real function call, not
a type conversion). -/
def isFuncCall : Expr → Bool
  | .call true _ => true
  | _ => false

/-- A node is of a kind outside the allowed inspection list (modelled by
the function-literal node). -/
def isOtherDisallowed : Expr → Bool
  | .funcLit => true
  | _ => false

/-- The expression contains a channel-receive node. -/
def containsChanRecv (e : Expr) : Bool :=
  (preorder e).any isChanRecv

/-- The expression contains a real function call. -/
def containsFuncCall (e : Expr) : Bool :=
  (preorder e).any isFuncCall

/-- The expression contains a node of a disallowed kind other than channel
receives and real calls. -/
def containsOtherDisallowed (e : Expr) : Bool :=
  (preorder e).any isOtherDisallowed

theorem nodeOK_eq_not_bad (x : Expr) :
    nodeOK x = !(isChanRecv x || isFuncCall x || isOtherDisallowed x) := by
  cases x <;>
    simp [nodeOK, isChanRecv, isFuncCall, isOtherDisallowed]
  case unary ar e => cases ar <;> simp [isChanRecv]
  case call sig cs => cases sig <;> simp [isFuncCall]

theorem exprOK_eq_not_contains (e : Expr) :
    exprOK e = !(containsChanRecv e || containsFuncCall e
      || containsOtherDisallowed e) := by
  rw [exprOK, containsChanRecv, containsFuncCall, containsOtherDisallowed]
  induction preorder e with
  | nil => rfl
  | cons x xs ih =>
    simp only [List.all_cons, List.any_cons, ih, nodeOK_eq_not_bad x]
    cases isChanRecv x <;> cases isFuncCall x <;> cases isOtherDisallowed x <;>
      cases xs.any isChanRecv <;> cases xs.any isFuncCall <;>
      cases xs.any isOtherDisallowed <;> rfl

/-- Embedding of `Value` (parse.go, lines 184 to 197).  `pos` is the
position of the expression, `out` the type the value produces, `expr` the
expression passed to `wire.Value`. -/
structure Value where
  pos : Nat
  out : Ty
  expr : Expr
deriving Repr

/-- Embedding of `processValue` (parse.go, lines 775 to 817).  The call is
given by its position and the list of its arguments, each an expression
together with the type `info.TypeOf` reports for it.  The argument-count
check, the complexity inspection, and the interface-type check happen in
source order. -/
def processValue (cpos : Nat) (args : List (Expr × Ty)) : Except WireError Value :=
  match args with
  | [(e, t)] =>
    if !(exprOK e) then .error ⟨cpos, .tooComplex⟩
    else if (underlyingInterface t).isSome then .error ⟨cpos, .valueIsInterface t⟩
    else .ok ⟨cpos, t, e⟩
  | _ => .error ⟨cpos, .valueTakesOneArg⟩

/-- Whether a `processValue` result is the rejection that redirects to
`wire.InterfaceValue`. -/
def isIfaceValueError (r : Except WireError Value) : Bool :=
  match r with
  | .error e =>
    match e.msg with
    | .valueIsInterface _ => true
    | _ => false
  | .ok _ => false

/-- Claim C6 counterexample: a function literal argument is rejected as too
complex although it contains neither a channel receive nor a call whose
operand is a function, so the **only if** direction of the claim is false. -/
theorem value_complexity_counterexample :
    processValue 7 [(Expr.funcLit, Ty.named "T" [])] = .error ⟨7, .tooComplex⟩
    ∧ containsChanRecv Expr.funcLit = false
    ∧ containsFuncCall Expr.funcLit = false
    ∧ ErrMsg.render .tooComplex = "argument to Value is too complex" :=
  ⟨rfl, rfl, rfl, rfl⟩

/-- Claim C6 (amended): a one-argument `wire.Value` call is rejected with
the too-complex error if and only if its expression contains a channel
receive, a call whose operand is a function (any call other than a type
conversion), or a node of a kind outside the allowed inspection list (such
as a function literal); in particular a struct composite literal built only
from literals and identifiers is accepted and an expression containing a
channel receive is rejected. -/
theorem value_complexity_rejection :
    (∀ (cpos : Nat) (e : Expr) (t : Ty),
      processValue cpos [(e, t)] = .error ⟨cpos, .tooComplex⟩
        ↔ (containsChanRecv e || containsFuncCall e
            || containsOtherDisallowed e) = true)
    ∧ (∃ v, processValue 0
        [(Expr.composite [Expr.typeNode "structType", Expr.ident "x",
            Expr.basicLit "1"], Ty.named "S" [])] = .ok v)
    ∧ processValue 1 [(Expr.unary true (Expr.ident "ch"), Ty.named "T" [])]
        = .error ⟨1, .tooComplex⟩ := by
  refine ⟨?_, ⟨_, rfl⟩, rfl⟩
  intro cpos e t
  have hc := exprOK_eq_not_contains e
  constructor
  · intro heq
    cases hok : exprOK e with
    | false =>
      rw [hok] at hc
      cases hXv : (containsChanRecv e || containsFuncCall e
          || containsOtherDisallowed e) with
      | true => rfl
      | false => rw [hXv] at hc; cases hc
    | true =>
      simp only [processValue, hok, Bool.not_true, Bool.false_eq_true,
        if_false] at heq
      split at heq <;> simp_all
  · intro hX
    have hok : exprOK e = false := by rw [hc, hX]; rfl
    simp [processValue, hok]

/-- Claim C10: a one-argument `wire.Value` call whose argument type has an
interface underlying type is rejected with the error that redirects to
`wire.InterfaceValue` even when the expression passes the complexity check,
and a call with a non-interface argument type is never rejected with that
error. -/
theorem value_interface_redirect : ∀ (cpos : Nat) (e : Expr) (t : Ty),
    (exprOK e = true → (underlyingInterface t).isSome = true →
      processValue cpos [(e, t)] = .error ⟨cpos, .valueIsInterface t⟩
      ∧ (ErrMsg.valueIsInterface t).render
          = "argument to Value may not be an interface value (found "
            ++ tyString t ++ "); use InterfaceValue instead")
    ∧ ((underlyingInterface t).isSome = false →
      isIfaceValueError (processValue cpos [(e, t)]) = false) := by
  intro cpos e t
  constructor
  · intro hok hi
    exact ⟨by simp [processValue, hok, hi], rfl⟩
  · intro hi
    cases hok : exprOK e with
    | false => simp [processValue, hok, isIfaceValueError]
    | true => simp [processValue, hok, hi, isIfaceValueError]

/-- Witness for claim C10: a plain identifier of the interface type I is
redirected to InterfaceValue. -/
theorem value_interface_redirect_witness :
    processValue 3 [(Expr.ident "x", Ty.iface "I" [])]
      = .error ⟨3, .valueIsInterface (Ty.iface "I" [])⟩
    ∧ (ErrMsg.valueIsInterface (Ty.iface "I" [])).render
        = "argument to Value may not be an interface value (found "
          ++ tyString (Ty.iface "I" []) ++ "); use InterfaceValue instead" :=
  (value_interface_redirect 3 (Expr.ident "x") (Ty.iface "I" [])).1 rfl rfl

/-- Embedding of `InjectorArgs` (parse.go, lines 207 to 215). -/
structure InjectorArgs where
  name : String
  tuple : List Ty
  pos : Nat
deriving Repr

/-- Embedding of `InjectorArg` (parse.go, lines 199 to 205). -/
structure InjectorArg where
  args : InjectorArgs
  index : Nat
deriving Repr

/-- Embedding of `ProvidedType` (parse.go, lines 921 to 931): the provided
concrete type and at most one of a provider, a value, or an injector
argument.  Go nil pointers are modelled by `none`. -/
structure ProvidedType where
  t : Option Ty
  p : Option Provider
  v : Option Value
  a : Option InjectorArg
deriving Repr

/-- The Go zero value `ProvidedType{}`. -/
def zeroProvidedType : ProvidedType := ⟨none, none, none, none⟩

/-- Embedding of `ProvidedType.IsNil` (parse.go, lines 933 to 936). -/
def ProvidedType.IsNil (pt : ProvidedType) : Bool :=
  pt.p.isNone && pt.v.isNone && pt.a.isNone

/-- Embedding of `ProvidedType.IsProvider` (parse.go, lines 943 to 946). -/
def ProvidedType.IsProvider (pt : ProvidedType) : Bool :=
  pt.p.isSome

/-- Embedding of `ProvidedType.IsValue` (parse.go, lines 948 to 951). -/
def ProvidedType.IsValue (pt : ProvidedType) : Bool :=
  pt.v.isSome

/-- Embedding of `ProvidedType.IsArg` (parse.go, lines 953 to 956). -/
def ProvidedType.IsArg (pt : ProvidedType) : Bool :=
  pt.a.isSome

/-- Embedding of `ProvidedType.Provider` (parse.go, lines 958 to 965).
The Go accessor panics when the field is nil; the panic is modelled by
`none`, the returned pointer by `some`. -/
def ProvidedType.providerA (pt : ProvidedType) : Option Provider :=
  match pt.p with
  | none => none
  | some p => some p

/-- Embedding of `ProvidedType.Value` (parse.go, lines 967 to 974), with
the panic modelled by `none`. -/
def ProvidedType.valueA (pt : ProvidedType) : Option Value :=
  match pt.v with
  | none => none
  | some v => some v

/-- Embedding of `ProvidedType.Arg` (parse.go, lines 976 to 983), with the
panic modelled by `none`. -/
def ProvidedType.argA (pt : ProvidedType) : Option InjectorArg :=
  match pt.a with
  | none => none
  | some a => some a

/-- The merged provider map of a set (`typeutil.Map` from provided type to
`*ProvidedType`), modelled as an association list keyed by type identity. -/
abbrev PMap := List (Ty × ProvidedType)

/-- Embedding of `ProviderSet` (parse.go, lines 84 to 110).  Because a set
holds its imported sets by reference, the structure is recursive.  Field
order: pos, pkgPath, varName, providers, bindings, values, imports,
injectorArgs, providerMap.  `providerMap` is `none` until the set is built
(the Go nil map). -/
inductive ProviderSet where
  | mk (pos : Nat) (pkgPath varName : String) (providers : List Provider)
      (bindings : List IfaceBinding) (values : List Value)
      (imports : List ProviderSet) (injectorArgs : Option InjectorArgs)
      (providerMap : Option PMap)

/-- The `providerMap` field of a set. -/
def ProviderSet.providerMapO : ProviderSet → Option PMap
  | .mk _ _ _ _ _ _ _ _ pm => pm

/-- Lookup by type identity in the merged map, modelling
`set.providerMap.At(t)`. -/
def pmLookup : PMap → Ty → Option ProvidedType
  | [], _ => none
  | (k, pt) :: rest, t => if k = t then some pt else pmLookup rest t

/-- Embedding of `ProviderSet.For` (parse.go, lines 118 to 125): the
`ProvidedType` for the given type, or the zero `ProvidedType`. -/
def ProviderSet.forType (set : ProviderSet) (t : Ty) : ProvidedType :=
  match set.providerMapO with
  | none => zeroProvidedType
  | some m =>
    match pmLookup m t with
    | none => zeroProvidedType
    | some pt => pt

/-- Embedding of `ProviderSet.Outputs` (parse.go, lines 112 to 116): the
keys of the merged map. -/
def ProviderSet.outputsOf (set : ProviderSet) : List Ty :=
  match set.providerMapO with
  | none => []
  | some m => m.map Prod.fst

/-- A successfully parsed argument of a `wire.NewSet` or `wire.Build` call:
`processExpr` returns a `*Provider`, a `*ProviderSet`, an `*IfaceBinding`,
or a `*Value`. -/
inductive SetItem where
  | provider (p : Provider)
  | providerSet (s : ProviderSet)
  | binding (b : IfaceBinding)
  | value (v : Value)

/-- The result of `oc.processExpr` on one argument of the call: the errors
(possibly empty) and the item, which the Go loop consults only when the
error list is empty. -/
structure ParsedArg where
  errs : List WireError
  item : SetItem

/-- The argument loop of `processNewSet` (parse.go, lines 557 to 576): each
argument with errors adds them to the collector and processing continues
with the next argument; each argument without errors is appended to the
list for its kind.  Returns (errors, providers, imports, bindings,
values), each in argument order. -/
def collectArgs : List ParsedArg →
    List WireError × List Provider × List ProviderSet × List IfaceBinding × List Value
  | [] => ([], [], [], [], [])
  | a :: rest =>
    match collectArgs rest with
    | (es, ps, imps, bs, vs) =>
      if a.errs ≠ [] then (a.errs ++ es, ps, imps, bs, vs)
      else
        match a.item with
        | .provider p => (es, p :: ps, imps, bs, vs)
        | .providerSet s => (es, ps, s :: imps, bs, vs)
        | .binding b => (es, ps, imps, b :: bs, vs)
        | .value v => (es, ps, imps, bs, v :: vs)

/-- Embedding of `processNewSet` (parse.go, lines 548 to 589).  The call is
given by its position, package path, variable name, the per-argument
results of `processExpr`, and the injector arguments (`wire.Build` only).
`buildProviderMap` and `verifyAcyclic` live outside parse.go and are taken
as parameters: the first returns the merged map together with its errors,
the second the error list of the acyclicity check.  The Go function returns
a `(*ProviderSet, []error)` pair; the possibly-nil pointer is the
`Option ProviderSet`. -/
def processNewSet (cpos : Nat) (pkgPath varName : String) (args : List ParsedArg)
    (injectorArgs : Option InjectorArgs)
    (buildProviderMap : ProviderSet → Option PMap × List WireError)
    (verifyAcyclic : Option PMap → List WireError) :
    Option ProviderSet × List WireError :=
  match collectArgs args with
  | (es, ps, imps, bs, vs) =>
    if es ≠ [] then (none, es)
    else
      match buildProviderMap
          (ProviderSet.mk cpos pkgPath varName ps bs vs imps injectorArgs none) with
      | (pm, errs2) =>
        if errs2 ≠ [] then (none, errs2)
        else
          match verifyAcyclic pm with
          | [] =>
            (some (ProviderSet.mk cpos pkgPath varName ps bs vs imps injectorArgs pm),
              [])
          | e :: es2 => (none, e :: es2)

theorem collectArgs_errs (args : List ParsedArg) :
    (collectArgs args).1 = (args.map ParsedArg.errs).flatten := by
  induction args with
  | nil => rfl
  | cons a rest ih =>
    rcases hc : collectArgs rest with ⟨es, ps, imps, bs, vs⟩
    rw [hc] at ih
    by_cases he : a.errs ≠ []
    · simp [collectArgs, hc, he, ih]
    · push_neg at he
      cases hi : a.item <;> simp [collectArgs, hc, he, hi, ih]

theorem filter_nonempty_length_le (ls : List (List WireError)) :
    (ls.filter (fun l => !l.isEmpty)).length ≤ ls.flatten.length := by
  induction ls with
  | nil => simp
  | cons l rest ih =>
    cases l with
    | nil => simpa using ih
    | cons x xs =>
      simp only [List.filter_cons, List.flatten_cons, List.isEmpty_cons,
        Bool.not_false, if_true, List.length_cons, List.length_append]
      omega

/-- Claim C7: when any argument of a `wire.NewSet` or `wire.Build` call
fails, the error lists of all failing arguments are returned together, in
argument order: processing of one argument does not stop the others from
being processed, the batch holds at least one entry per failing argument,
and every error of every argument reaches the returned batch. -/
theorem newSet_error_batching : ∀ (cpos : Nat) (pkgPath varName : String)
    (args : List ParsedArg) (ia : Option InjectorArgs)
    (bpm : ProviderSet → Option PMap × List WireError)
    (va : Option PMap → List WireError),
    (∃ a ∈ args, a.errs ≠ []) →
    processNewSet cpos pkgPath varName args ia bpm va
      = (none, (args.map ParsedArg.errs).flatten)
    ∧ (args.filter (fun a => !a.errs.isEmpty)).length
        ≤ ((args.map ParsedArg.errs).flatten).length
    ∧ ∀ a ∈ args, ∀ e2 ∈ a.errs,
        e2 ∈ (processNewSet cpos pkgPath varName args ia bpm va).2 := by
  intro cpos pkgPath varName args ia bpm va hex
  obtain ⟨a0, ha0, hne0⟩ := hex
  have hflat_ne : ((args.map ParsedArg.errs).flatten) ≠ [] := by
    obtain ⟨e0, he0⟩ := List.exists_mem_of_ne_nil _ hne0
    intro hnil
    have hm : e0 ∈ (args.map ParsedArg.errs).flatten := by
      rw [List.mem_flatten]
      exact ⟨a0.errs, List.mem_map_of_mem _ ha0, he0⟩
    rw [hnil] at hm
    cases hm
  have hces := collectArgs_errs args
  have hmain : processNewSet cpos pkgPath varName args ia bpm va
      = (none, (args.map ParsedArg.errs).flatten) := by
    rcases hc : collectArgs args with ⟨es, ps, imps, bs, vs⟩
    rw [hc] at hces
    simp only at hces
    subst hces
    rw [processNewSet, hc]
    dsimp only
    rw [if_pos hflat_ne]
  refine ⟨hmain, ?_, ?_⟩
  · have hfm : args.filter (fun a => !a.errs.isEmpty)
        = args.filter ((fun l => !l.isEmpty) ∘ ParsedArg.errs) := rfl
    rw [hfm]
    have := filter_nonempty_length_le (args.map ParsedArg.errs)
    rwa [List.filter_map, List.length_map] at this
  · intro a ha e2 he2
    rw [hmain]
    rw [List.mem_flatten]
    exact ⟨a.errs, List.mem_map_of_mem _ ha, he2⟩

/-- Witness for claim C7: a call with one failing and one succeeding
argument returns exactly the failing argument errors, with the map and the
acyclicity check never reached. -/
theorem newSet_error_batching_witness :
    processNewSet 0 "pp" "vv"
        [⟨[⟨1, .tooComplex⟩], SetItem.value ⟨9, Ty.named "V" [], Expr.ident "x"⟩⟩,
          ⟨[], SetItem.provider ⟨"p", "f", 4, [], false, [], [Ty.named "R" []],
            false, false⟩⟩]
        none (fun _ => (none, [])) (fun _ => [])
      = (none, (([⟨[⟨1, .tooComplex⟩],
            SetItem.value ⟨9, Ty.named "V" [], Expr.ident "x"⟩⟩,
          ⟨[], SetItem.provider ⟨"p", "f", 4, [], false, [], [Ty.named "R" []],
            false, false⟩⟩] : List ParsedArg).map ParsedArg.errs).flatten)
    ∧ (([⟨[⟨1, .tooComplex⟩],
            SetItem.value ⟨9, Ty.named "V" [], Expr.ident "x"⟩⟩,
          ⟨[], SetItem.provider ⟨"p", "f", 4, [], false, [], [Ty.named "R" []],
            false, false⟩⟩] : List ParsedArg).filter
          (fun a => !a.errs.isEmpty)).length
        ≤ ((([⟨[⟨1, .tooComplex⟩],
            SetItem.value ⟨9, Ty.named "V" [], Expr.ident "x"⟩⟩,
          ⟨[], SetItem.provider ⟨"p", "f", 4, [], false, [], [Ty.named "R" []],
            false, false⟩⟩] : List ParsedArg).map ParsedArg.errs).flatten).length
    ∧ ∀ a ∈ ([⟨[⟨1, .tooComplex⟩],
            SetItem.value ⟨9, Ty.named "V" [], Expr.ident "x"⟩⟩,
          ⟨[], SetItem.provider ⟨"p", "f", 4, [], false, [], [Ty.named "R" []],
            false, false⟩⟩] : List ParsedArg), ∀ e2 ∈ a.errs,
        e2 ∈ (processNewSet 0 "pp" "vv"
          [⟨[⟨1, .tooComplex⟩], SetItem.value ⟨9, Ty.named "V" [], Expr.ident "x"⟩⟩,
            ⟨[], SetItem.provider ⟨"p", "f", 4, [], false, [], [Ty.named "R" []],
              false, false⟩⟩]
          none (fun _ => (none, [])) (fun _ => [])).2 :=
  newSet_error_batching 0 "pp" "vv"
    [⟨[⟨1, .tooComplex⟩], SetItem.value ⟨9, Ty.named "V" [], Expr.ident "x"⟩⟩,
      ⟨[], SetItem.provider ⟨"p", "f", 4, [], false, [], [Ty.named "R" []],
        false, false⟩⟩]
    none (fun _ => (none, [])) (fun _ => [])
    ⟨⟨[⟨1, .tooComplex⟩], SetItem.value ⟨9, Ty.named "V" [], Expr.ident "x"⟩⟩,
      List.mem_cons_self _ _, by decide⟩

/-- Claim C8: whenever `processNewSet` returns a non-empty error list,
whether from the argument loop, from building the merged provider map, or
from the acyclicity check, the returned set pointer is nil: no partially
merged set is exposed alongside errors. -/
theorem newSet_no_partial_result : ∀ (cpos : Nat) (pkgPath varName : String)
    (args : List ParsedArg) (ia : Option InjectorArgs)
    (bpm : ProviderSet → Option PMap × List WireError)
    (va : Option PMap → List WireError),
    (processNewSet cpos pkgPath varName args ia bpm va).2 ≠ [] →
    (processNewSet cpos pkgPath varName args ia bpm va).1 = none := by
  intro cpos pkgPath varName args ia bpm va hne
  rcases hc : collectArgs args with ⟨es, ps, imps, bs, vs⟩
  rw [processNewSet, hc] at hne ⊢
  dsimp only at hne ⊢
  by_cases he : es ≠ []
  · rw [if_pos he]
  · rw [if_neg he] at hne ⊢
    rcases hb : bpm (ProviderSet.mk cpos pkgPath varName ps bs vs imps ia none)
      with ⟨pm, errs2⟩
    rw [hb] at hne
    dsimp only at hne ⊢
    by_cases he2 : errs2 ≠ []
    · rw [if_pos he2]
    · rw [if_neg he2] at hne ⊢
      cases hv : va pm with
      | nil => rw [hv] at hne; exact absurd rfl hne
      | cons e2 es2 => rfl

/-- Witness for claim C8: with a failing argument the error list is
non-empty and the returned set is nil. -/
theorem newSet_no_partial_result_witness :
    (processNewSet 0 "pp" "vv"
        [⟨[⟨1, .bindTakesTwoArgs⟩],
          SetItem.value ⟨9, Ty.named "V" [], Expr.ident "x"⟩⟩]
        none (fun _ => (none, [])) (fun _ => [])).1 = none :=
  newSet_no_partial_result 0 "pp" "vv"
    [⟨[⟨1, .bindTakesTwoArgs⟩],
      SetItem.value ⟨9, Ty.named "V" [], Expr.ident "x"⟩⟩]
    none (fun _ => (none, [])) (fun _ => []) (by decide)

theorem pmLookup_eq_none (m : PMap) (t : Ty) (h : t ∉ m.map Prod.fst) :
    pmLookup m t = none := by
  induction m with
  | nil => rfl
  | cons kv rest ih =>
    rcases kv with ⟨k, pt⟩
    simp only [List.map_cons, List.mem_cons] at h
    push_neg at h
    rw [pmLookup, if_neg (fun he => h.1 he.symm)]
    exact ih h.2

/-- Claim C9: for a type absent from the merged index, `For` returns the
zero `ProvidedType` (no lookup failure is reported and nothing panics),
whose `IsNil` is true and whose three kind predicates are all false; and on
every `ProvidedType` each accessor panics (modelled by `none`) exactly when
the corresponding predicate is false. -/
theorem providedType_accessor_safety : ∀ (set : ProviderSet) (t : Ty),
    (t ∉ set.outputsOf →
      set.forType t = zeroProvidedType
      ∧ (set.forType t).IsNil = true
      ∧ (set.forType t).IsProvider = false
      ∧ (set.forType t).IsValue = false
      ∧ (set.forType t).IsArg = false)
    ∧ ∀ pt : ProvidedType,
        pt.providerA.isNone = (!pt.IsProvider)
        ∧ pt.valueA.isNone = (!pt.IsValue)
        ∧ pt.argA.isNone = (!pt.IsArg) := by
  intro set t
  constructor
  · intro habs
    have hz : set.forType t = zeroProvidedType := by
      cases hpm : set.providerMapO with
      | none => rw [ProviderSet.forType, hpm]
      | some m =>
        have hlk : pmLookup m t = none := by
          apply pmLookup_eq_none
          intro hmem
          apply habs
          rw [ProviderSet.outputsOf, hpm]
          exact hmem
        rw [ProviderSet.forType, hpm]
        dsimp only
        rw [hlk]
    refine ⟨hz, ?_, ?_, ?_, ?_⟩ <;> rw [hz] <;> rfl
  · intro pt
    rcases pt with ⟨t0, p0, v0, a0⟩
    refine ⟨?_, ?_, ?_⟩ <;> cases p0 <;> cases v0 <;> cases a0 <;> rfl

/-- Witness for claim C9 at a set with an empty merged map and a type not
among its outputs. -/
theorem providedType_accessor_safety_witness :
    ProviderSet.forType (ProviderSet.mk 0 "pp" "vv" [] [] [] [] none (some []))
        (Ty.named "X" []) = zeroProvidedType
    ∧ (ProviderSet.forType (ProviderSet.mk 0 "pp" "vv" [] [] [] [] none (some []))
        (Ty.named "X" [])).IsNil = true
    ∧ (ProviderSet.forType (ProviderSet.mk 0 "pp" "vv" [] [] [] [] none (some []))
        (Ty.named "X" [])).IsProvider = false
    ∧ (ProviderSet.forType (ProviderSet.mk 0 "pp" "vv" [] [] [] [] none (some []))
        (Ty.named "X" [])).IsValue = false
    ∧ (ProviderSet.forType (ProviderSet.mk 0 "pp" "vv" [] [] [] [] none (some []))
        (Ty.named "X" [])).IsArg = false :=
  (providedType_accessor_safety
      (ProviderSet.mk 0 "pp" "vv" [] [] [] [] none (some []))
      (Ty.named "X" [])).1 (by decide)

end Wire
